import Mathlib

/-!
Verification of the FreeType charmap cache (`src/ts-freetype2/src/cache/ftccmap.c`).

The development shallowly embeds the cmap-cache node callbacks
(`ftc_cmap_node_new`, `ftc_cmap_node_compare`, `ftc_cmap_node_weight`) and the
public lookup `FTC_CMapCache_Lookup`.  C machine integers are modelled as `Nat`
with explicit `% 2 ^ 32` / `% 2 ^ 16` reductions where overflow or truncation
occurs; the opaque `FTC_FaceID` pointer is modelled as a numeric identifier.

External collaborators that are not part of this translation unit (the generic
cache manager's find-or-insert, `FTC_Manager_LookupFace`, `FT_TS_Set_Charmap`,
`FT_TS_Get_Char_Index`) are modelled from the specification's interface
descriptions; every call to them is additionally recorded in an observation
trace so that "the font service is (not) consulted" becomes a provable
statement.
-/

/-- Number of glyph indices per node (`FTC_CMAP_INDICES_MAX` in ftccmap.c). -/
def FTC_CMAP_INDICES_MAX : Nat := 128

/-- The reserved "not yet queried" sentinel `FTC_CMAP_UNKNOWN = (FT_TS_UInt16)~0`. -/
def FTC_CMAP_UNKNOWN : Nat := 65535

/-- Unsigned 32-bit subtraction: the value of the C expression
`(FT_TS_UInt32)( a - b )` for unsigned operands, i.e. `a - b` modulo `2 ^ 32`. -/
def usub32 (a b : Nat) : Nat :=
  (a % 2 ^ 32 + (2 ^ 32 - b % 2 ^ 32)) % 2 ^ 32

/-- The charmap query record `FTC_CMapQueryRec`: `face_id` models the opaque
`FTC_FaceID`, `cmap_index` is the (already normalised, unsigned) charmap index,
`char_code` is an `FT_TS_UInt32` character code. -/
structure FTC_CMapQueryRec where
  face_id : Nat
  cmap_index : Nat
  char_code : Nat
deriving DecidableEq, Repr

/-- The cmap cache node `FTC_CMapNodeRec`.  The embedded generic header
`FTC_NodeRec node` (mru links, hash, reference count) belongs to the cache
manager and carries no information used by this translation unit, so it is not
modelled.  `indices` maps an offset `0 ≤ o < 128` to the stored 16-bit glyph
index (`FT_TS_UInt16 indices[FTC_CMAP_INDICES_MAX]`). -/
structure FTC_CMapNodeRec where
  face_id : Nat
  cmap_index : Nat
  first : Nat
  indices : Nat → Nat

/-- `ftc_cmap_node_new`: on successful allocation the node copies the query's
face id and cmap index, rounds the char code down to a multiple of 128, and
fills all 128 entries with `FTC_CMAP_UNKNOWN`. -/
def ftc_cmap_node_new (query : FTC_CMapQueryRec) : FTC_CMapNodeRec :=
  { face_id := query.face_id
    cmap_index := query.cmap_index
    first := query.char_code / FTC_CMAP_INDICES_MAX * FTC_CMAP_INDICES_MAX
    indices := fun _ => FTC_CMAP_UNKNOWN }

/-- `ftc_cmap_node_compare`: a node matches a query iff face id and cmap index
agree and the unsigned 32-bit difference `char_code - first` is below 128. -/
def ftc_cmap_node_compare (node : FTC_CMapNodeRec) (query : FTC_CMapQueryRec) : Bool :=
  node.face_id == query.face_id && node.cmap_index == query.cmap_index &&
    decide (usub32 query.char_code node.first < FTC_CMAP_INDICES_MAX)

/-- `ftc_cmap_node_weight` returns `sizeof ( *cnode )` where the parameter
`cnode` has the generic handle type `FTC_Node = FTC_NodeRec*`.  Hence the
returned weight is the byte size of the generic header `FTC_NodeRec`, which the
ABI fixes outside this translation unit and which is therefore passed in as a
parameter here. -/
def ftc_cmap_node_weight (sizeof_FTC_NodeRec : Nat) : Nat :=
  sizeof_FTC_NodeRec

/-- C layout constraint tying the byte size of the full `FTC_CMapNodeRec` to
its members: a struct is at least as large as the sum of the sizes of its
members, and `FTC_CMapNodeRec` holds an `FTC_NodeRec` header, an `FTC_FaceID`
pointer, an `FT_TS_UInt`, an `FT_TS_UInt32`, and 128 two-byte `FT_TS_UInt16`
entries. -/
def cmapNodeLayoutOk (sizeof_FTC_NodeRec sizeof_FTC_CMapNodeRec
    ptrSize uintSize uint32Size : Nat) : Prop :=
  sizeof_FTC_NodeRec + ptrSize + uintSize + uint32Size +
      2 * FTC_CMAP_INDICES_MAX ≤ sizeof_FTC_CMapNodeRec

/-- Model of the font object `FT_TS_Face`, specified at its interface boundary.
Modelled from the spec: the FontService capabilities are `numCharmaps()`,
`activeCharmap()`, `setActiveCharmap(index)` and `glyphIndexForChar(code)`.
The active charmap pointer `face->charmap` is modelled as an index into
`face->charmaps` (`none` models a NULL active charmap); distinct indices model
distinct `FT_TS_CharMap` pointers.  `get_char_index` gives the glyph index
`FT_TS_Get_Char_Index` reports as a function of the active charmap and the
character code. -/
structure FT_TS_FaceRec where
  num_charmaps : Nat
  charmap : Option Nat
  get_char_index : Option Nat → Nat → Nat

/-- Modelled from the spec: `FT_TS_Set_Charmap` (base layer, not under `src/`)
sets the face's active charmap. -/
def FT_TS_Set_Charmap (face : FT_TS_FaceRec) (cmap : Option Nat) : FT_TS_FaceRec :=
  { face with charmap := cmap }

/-- Modelled from the spec: `FT_TS_Get_Char_Index` (base layer, not under
`src/`) returns the glyph index of a character code under the face's currently
active charmap. -/
def FT_TS_Get_Char_Index (face : FT_TS_FaceRec) (char_code : Nat) : Nat :=
  face.get_char_index face.charmap char_code

/-- Result of the charmap-switching section of `FTC_CMapCache_Lookup`
(lines 298-313 of ftccmap.c): the computed glyph index, the face as left
behind by the section, the arguments of the `FT_TS_Set_Charmap` calls made,
and the `(active charmap, char code)` pairs passed to `FT_TS_Get_Char_Index`. -/
structure ResolveResult where
  gindex : Nat
  face : FT_TS_FaceRec
  set_charmap_trace : List (Option Nat)
  cmap_queries : List (Option Nat × Nat)

/-- Lines 298-313 of `FTC_CMapCache_Lookup`: if the (normalised) cmap index is
within `face->num_charmaps`, remember the active charmap `old`, switch to the
target charmap when it differs and `no_cmap_change` is unset, query the glyph
index, and switch back under the same condition; out of range the glyph index
stays 0.  The two branches of the `old != cmap && !no_cmap_change` test are
expanded so each exit is a literal term. -/
def resolveInFace (face : FT_TS_FaceRec) (no_cmap_change : Bool)
    (cmap_index char_code : Nat) : ResolveResult :=
  if cmap_index < face.num_charmaps then
    if face.charmap ≠ some cmap_index ∧ no_cmap_change = false then
      { gindex := FT_TS_Get_Char_Index (FT_TS_Set_Charmap face (some cmap_index)) char_code
        face := FT_TS_Set_Charmap (FT_TS_Set_Charmap face (some cmap_index)) face.charmap
        set_charmap_trace := [some cmap_index, face.charmap]
        cmap_queries := [(some cmap_index, char_code)] }
    else
      { gindex := FT_TS_Get_Char_Index face char_code
        face := face
        set_charmap_trace := []
        cmap_queries := [(face.charmap, char_code)] }
  else
    { gindex := 0
      face := face
      set_charmap_trace := []
      cmap_queries := [] }

/-- Result of running the body of `FTC_CMapCache_Lookup` on one node: the
returned glyph index, the node as left behind, the face environment as left
behind, and the observation traces (face ids passed to
`FTC_Manager_LookupFace`, arguments of `FT_TS_Set_Charmap`, and
`FT_TS_Get_Char_Index` queries). -/
structure NodeResult where
  gindex : Nat
  node : FTC_CMapNodeRec
  faces : Nat → Option FT_TS_FaceRec
  resolve_trace : List Nat
  set_charmap_trace : List (Option Nat)
  cmap_queries : List (Option Nat × Nat)

/-- Lines 276-321 of `FTC_CMapCache_Lookup`, operating on the node produced by
the cache manager: the defensive bound check on the unsigned offset, the fast
path when the entry is already resolved, the `FTC_Manager_LookupFace` call
(modelled from the spec as a partial environment `faces` from face ids to live
faces), the charmap-switching resolution, and the 16-bit store
`indices[offset] = (FT_TS_UShort)gindex`. -/
def FTC_CMapCache_LookupInNode (faces : Nat → Option FT_TS_FaceRec)
    (node : FTC_CMapNodeRec) (no_cmap_change : Bool) (cmap_index : Nat)
    (char_code : Nat) : NodeResult :=
  if FTC_CMAP_INDICES_MAX ≤ usub32 char_code node.first then
    { gindex := 0, node := node, faces := faces
      resolve_trace := [], set_charmap_trace := [], cmap_queries := [] }
  else if node.indices (usub32 char_code node.first) = FTC_CMAP_UNKNOWN then
    match faces node.face_id with
    | none =>
      { gindex := 0, node := node, faces := faces
        resolve_trace := [node.face_id], set_charmap_trace := [], cmap_queries := [] }
    | some face =>
      let r := resolveInFace face no_cmap_change cmap_index char_code
      let stored : Nat → Nat := fun j =>
        if j = usub32 char_code node.first then r.gindex % 2 ^ 16 else node.indices j
      { gindex := r.gindex
        node := { node with indices := stored }
        faces := fun j => if j = node.face_id then some r.face else faces j
        resolve_trace := [node.face_id]
        set_charmap_trace := r.set_charmap_trace
        cmap_queries := r.cmap_queries }
  else
    { gindex := node.indices (usub32 char_code node.first), node := node, faces := faces
      resolve_trace := [], set_charmap_trace := [], cmap_queries := [] }

/-- Replace the first node matching the query by the given node (the in-place
update of the node found by the cache manager's find-or-insert). -/
def replaceFirst (query : FTC_CMapQueryRec) (node : FTC_CMapNodeRec) :
    List FTC_CMapNodeRec → List FTC_CMapNodeRec
  | [] => []
  | n :: rest =>
    if ftc_cmap_node_compare n query then node :: rest
    else n :: replaceFirst query node rest

/-- The query built by `FTC_CMapCache_Lookup`: a negative cmap index is
normalised to 0 (the "do not change the active charmap" convention). -/
def normQuery (face_id : Nat) (cmap_index : Int) (char_code : Nat) :
    FTC_CMapQueryRec :=
  { face_id := face_id
    cmap_index := if cmap_index < 0 then 0 else cmap_index.toNat
    char_code := char_code }

/-- Result of one full `FTC_CMapCache_Lookup` call: the query that was used
for keying, the returned glyph index, the cache and face environment as left
behind, and the observation traces. -/
structure CallResult where
  query : FTC_CMapQueryRec
  gindex : Nat
  cache : List FTC_CMapNodeRec
  faces : Nat → Option FT_TS_FaceRec
  resolve_trace : List Nat
  set_charmap_trace : List (Option Nat)
  cmap_queries : List (Option Nat × Nat)

/-- `FTC_CMapCache_Lookup` (lines 229-322 of ftccmap.c).  A negative
`cmap_index` sets `no_cmap_change` and is replaced by 0.  The cache manager's
`FTC_CACHE_LOOKUP_CMP` (ftcmanag.h, not under `src/`) is modelled from the
spec as find-or-insert over the node list using the `ftc_cmap_node_compare`
callback: an existing matching node is reused and updated in place, otherwise
`ftc_cmap_node_new` builds a fresh node which is inserted (hashing only
buckets this search, so it is not modelled separately; allocation is modelled
as succeeding).  The NULL-handle early return (`if ( !cache ) return 0`) is
not modelled: the model receives the node list of a live cache directly. -/
def FTC_CMapCache_Lookup (faces : Nat → Option FT_TS_FaceRec)
    (cache : List FTC_CMapNodeRec) (face_id : Nat) (cmap_index : Int)
    (char_code : Nat) : CallResult :=
  match cache.find? (fun n => ftc_cmap_node_compare n (normQuery face_id cmap_index char_code)) with
  | some n =>
    let r := FTC_CMapCache_LookupInNode faces n (decide (cmap_index < 0))
      (normQuery face_id cmap_index char_code).cmap_index char_code
    { query := normQuery face_id cmap_index char_code
      gindex := r.gindex
      cache := replaceFirst (normQuery face_id cmap_index char_code) r.node cache
      faces := r.faces
      resolve_trace := r.resolve_trace
      set_charmap_trace := r.set_charmap_trace
      cmap_queries := r.cmap_queries }
  | none =>
    let r := FTC_CMapCache_LookupInNode faces
      (ftc_cmap_node_new (normQuery face_id cmap_index char_code))
      (decide (cmap_index < 0))
      (normQuery face_id cmap_index char_code).cmap_index char_code
    { query := normQuery face_id cmap_index char_code
      gindex := r.gindex
      cache := r.node :: cache
      faces := r.faces
      resolve_trace := r.resolve_trace
      set_charmap_trace := r.set_charmap_trace
      cmap_queries := r.cmap_queries }

/-- The stored entry a query would hit: the 16-bit slot of the first matching
node at the query's unsigned offset. -/
def cacheEntry (cache : List FTC_CMapNodeRec) (query : FTC_CMapQueryRec) :
    Option Nat :=
  (cache.find? (fun n => ftc_cmap_node_compare n query)).map
    (fun n => n.indices (usub32 query.char_code n.first))

/-- The entry value a lookup will inspect: the stored slot of the first
matching node, or `FTC_CMAP_UNKNOWN` when no node matches (a miss constructs
an all-`FTC_CMAP_UNKNOWN` node). -/
def probeEntry (cache : List FTC_CMapNodeRec) (query : FTC_CMapQueryRec) : Nat :=
  match cache.find? (fun n => ftc_cmap_node_compare n query) with
  | some n => n.indices (usub32 query.char_code n.first)
  | none => FTC_CMAP_UNKNOWN

theorem compare_eq_true_iff (node : FTC_CMapNodeRec) (q : FTC_CMapQueryRec) :
    ftc_cmap_node_compare node q = true ↔
      node.face_id = q.face_id ∧ node.cmap_index = q.cmap_index ∧
        usub32 q.char_code node.first < FTC_CMAP_INDICES_MAX := by
  simp [ftc_cmap_node_compare, and_assoc]

theorem usub32_of_le (a b : Nat) (hb : b ≤ a) (ha : a < 2 ^ 32) :
    usub32 a b = a - b := by
  unfold usub32
  omega

theorem usub32_lt_iff (c f : Nat) (hd : 128 ∣ f) (hf : f < 2 ^ 32)
    (hc : c < 2 ^ 32) :
    usub32 c f < FTC_CMAP_INDICES_MAX ↔ f ≤ c ∧ c - f < FTC_CMAP_INDICES_MAX := by
  obtain ⟨k, rfl⟩ := hd
  unfold usub32 FTC_CMAP_INDICES_MAX
  omega

theorem compare_node_new (q : FTC_CMapQueryRec) (hc : q.char_code < 2 ^ 32) :
    ftc_cmap_node_compare (ftc_cmap_node_new q) q = true := by
  rw [compare_eq_true_iff]
  refine ⟨rfl, rfl, ?_⟩
  show usub32 q.char_code (q.char_code / FTC_CMAP_INDICES_MAX * FTC_CMAP_INDICES_MAX) <
    FTC_CMAP_INDICES_MAX
  rw [usub32_of_le _ _ (Nat.div_mul_le_self _ _) hc]
  unfold FTC_CMAP_INDICES_MAX
  omega

theorem resolveInFace_face (face : FT_TS_FaceRec) (nc : Bool) (ci cc : Nat) :
    (resolveInFace face nc ci cc).face = face := by
  unfold resolveInFace
  split
  · split <;> rfl
  · rfl

theorem lookupInNode_fastpath (faces : Nat → Option FT_TS_FaceRec)
    (node : FTC_CMapNodeRec) (nc : Bool) (ci cc : Nat)
    (hoff : usub32 cc node.first < FTC_CMAP_INDICES_MAX)
    (hne : node.indices (usub32 cc node.first) ≠ FTC_CMAP_UNKNOWN) :
    FTC_CMapCache_LookupInNode faces node nc ci cc =
      ⟨node.indices (usub32 cc node.first), node, faces, [], [], []⟩ := by
  unfold FTC_CMapCache_LookupInNode
  rw [if_neg (by omega), if_neg hne]

theorem lookupInNode_resolve_fail (faces : Nat → Option FT_TS_FaceRec)
    (node : FTC_CMapNodeRec) (nc : Bool) (ci cc : Nat)
    (hoff : usub32 cc node.first < FTC_CMAP_INDICES_MAX)
    (hunk : node.indices (usub32 cc node.first) = FTC_CMAP_UNKNOWN)
    (hface : faces node.face_id = none) :
    FTC_CMapCache_LookupInNode faces node nc ci cc =
      ⟨0, node, faces, [node.face_id], [], []⟩ := by
  unfold FTC_CMapCache_LookupInNode
  rw [if_neg (by omega), if_pos hunk, hface]

theorem lookupInNode_resolve (faces : Nat → Option FT_TS_FaceRec)
    (node : FTC_CMapNodeRec) (nc : Bool) (ci cc : Nat) (face : FT_TS_FaceRec)
    (hoff : usub32 cc node.first < FTC_CMAP_INDICES_MAX)
    (hunk : node.indices (usub32 cc node.first) = FTC_CMAP_UNKNOWN)
    (hface : faces node.face_id = some face) :
    FTC_CMapCache_LookupInNode faces node nc ci cc =
      ⟨(resolveInFace face nc ci cc).gindex,
       { node with indices := fun j =>
           if j = usub32 cc node.first then (resolveInFace face nc ci cc).gindex % 2 ^ 16
           else node.indices j },
       fun j => if j = node.face_id then some (resolveInFace face nc ci cc).face
         else faces j,
       [node.face_id],
       (resolveInFace face nc ci cc).set_charmap_trace,
       (resolveInFace face nc ci cc).cmap_queries⟩ := by
  unfold FTC_CMapCache_LookupInNode
  rw [if_neg (by omega), if_pos hunk, hface]

theorem lookupInNode_node_fields (faces : Nat → Option FT_TS_FaceRec)
    (node : FTC_CMapNodeRec) (nc : Bool) (ci cc : Nat) :
    (FTC_CMapCache_LookupInNode faces node nc ci cc).node.face_id = node.face_id ∧
    (FTC_CMapCache_LookupInNode faces node nc ci cc).node.cmap_index = node.cmap_index ∧
    (FTC_CMapCache_LookupInNode faces node nc ci cc).node.first = node.first := by
  unfold FTC_CMapCache_LookupInNode
  split
  · exact ⟨rfl, rfl, rfl⟩
  split
  · cases hm : faces node.face_id with
    | none => exact ⟨rfl, rfl, rfl⟩
    | some face => exact ⟨rfl, rfl, rfl⟩
  · exact ⟨rfl, rfl, rfl⟩

theorem lookupInNode_no_overwrite (faces : Nat → Option FT_TS_FaceRec)
    (node : FTC_CMapNodeRec) (nc : Bool) (ci cc o : Nat)
    (ho : node.indices o ≠ FTC_CMAP_UNKNOWN) :
    (FTC_CMapCache_LookupInNode faces node nc ci cc).node.indices o = node.indices o := by
  unfold FTC_CMapCache_LookupInNode
  split
  · rfl
  split
  · rename_i hunk
    cases hm : faces node.face_id with
    | none => rfl
    | some face =>
      have hne : o ≠ usub32 cc node.first := fun he => ho (he ▸ hunk)
      show (if o = usub32 cc node.first
          then (resolveInFace face nc ci cc).gindex % 2 ^ 16 else node.indices o) =
        node.indices o
      rw [if_neg hne]
  · rfl

theorem lookupInNode_faces_unchanged (faces : Nat → Option FT_TS_FaceRec)
    (node : FTC_CMapNodeRec) (nc : Bool) (ci cc : Nat) :
    (FTC_CMapCache_LookupInNode faces node nc ci cc).faces = faces := by
  unfold FTC_CMapCache_LookupInNode
  split
  · rfl
  split
  · cases hm : faces node.face_id with
    | none => rfl
    | some face =>
      funext j
      show (if j = node.face_id then some (resolveInFace face nc ci cc).face
          else faces j) = faces j
      rw [resolveInFace_face]
      by_cases hj : j = node.face_id
      · rw [if_pos hj, hj, hm]
      · rw [if_neg hj]
  · rfl

theorem normQuery_face_id (fid : Nat) (ci : Int) (cc : Nat) :
    (normQuery fid ci cc).face_id = fid := rfl

theorem normQuery_char_code (fid : Nat) (ci : Int) (cc : Nat) :
    (normQuery fid ci cc).char_code = cc := rfl

theorem normQuery_cmap_index (fid : Nat) (ci : Int) (cc : Nat) :
    (normQuery fid ci cc).cmap_index = if ci < 0 then 0 else ci.toNat := rfl

theorem find?_cons_pos (q : FTC_CMapQueryRec) (a : FTC_CMapNodeRec)
    (l : List FTC_CMapNodeRec) (ha : ftc_cmap_node_compare a q = true) :
    (a :: l).find? (fun x => ftc_cmap_node_compare x q) = some a := by
  simp [List.find?, ha]

theorem find?_cons_neg (q : FTC_CMapQueryRec) (a : FTC_CMapNodeRec)
    (l : List FTC_CMapNodeRec) (ha : ¬ ftc_cmap_node_compare a q = true) :
    (a :: l).find? (fun x => ftc_cmap_node_compare x q) =
      l.find? (fun x => ftc_cmap_node_compare x q) := by
  have hb : ftc_cmap_node_compare a q = false := by
    cases hx : ftc_cmap_node_compare a q
    · rfl
    · exact absurd hx ha
  simp [List.find?, hb]

theorem compare_of_find? (q : FTC_CMapQueryRec) :
    ∀ (l : List FTC_CMapNodeRec) (n : FTC_CMapNodeRec),
      l.find? (fun x => ftc_cmap_node_compare x q) = some n →
      ftc_cmap_node_compare n q = true := by
  intro l
  induction l with
  | nil => intro n h; simp [List.find?] at h
  | cons a t ih =>
    intro n h
    by_cases hb : ftc_cmap_node_compare a q
    · rw [find?_cons_pos q a t hb] at h
      injection h with h
      rw [← h]
      exact hb
    · rw [find?_cons_neg q a t hb] at h
      exact ih n h

theorem replaceFirst_self (q : FTC_CMapQueryRec) (m : FTC_CMapNodeRec) :
    ∀ cache : List FTC_CMapNodeRec,
      cache.find? (fun n => ftc_cmap_node_compare n q) = some m →
      replaceFirst q m cache = cache := by
  intro cache
  induction cache with
  | nil => intro h; simp [List.find?] at h
  | cons a l ih =>
    intro h
    by_cases ha : ftc_cmap_node_compare a q
    · rw [find?_cons_pos q a l ha] at h
      injection h with h
      unfold replaceFirst
      rw [if_pos ha, h]
    · rw [find?_cons_neg q a l ha] at h
      unfold replaceFirst
      rw [if_neg ha, ih h]

theorem find?_replaceFirst (q : FTC_CMapQueryRec) (m : FTC_CMapNodeRec)
    (hm : ftc_cmap_node_compare m q = true) :
    ∀ (cache : List FTC_CMapNodeRec) (n : FTC_CMapNodeRec),
      cache.find? (fun x => ftc_cmap_node_compare x q) = some n →
      (replaceFirst q m cache).find? (fun x => ftc_cmap_node_compare x q) = some m := by
  intro cache
  induction cache with
  | nil => intro n h; simp [List.find?] at h
  | cons a l ih =>
    intro n h
    by_cases ha : ftc_cmap_node_compare a q
    · unfold replaceFirst
      rw [if_pos ha]
      exact find?_cons_pos q m l hm
    · unfold replaceFirst
      rw [if_neg ha]
      rw [find?_cons_neg q a l ha] at h
      rw [find?_cons_neg q a _ ha]
      exact ih n h

theorem lookup_faces_unchanged (faces : Nat → Option FT_TS_FaceRec)
    (cache : List FTC_CMapNodeRec) (fid : Nat) (ci : Int) (cc : Nat) :
    (FTC_CMapCache_Lookup faces cache fid ci cc).faces = faces := by
  unfold FTC_CMapCache_Lookup
  cases hfind : cache.find? (fun n => ftc_cmap_node_compare n (normQuery fid ci cc)) with
  | none => exact lookupInNode_faces_unchanged ..
  | some n => exact lookupInNode_faces_unchanged ..

theorem lookup_fastpath (faces : Nat → Option FT_TS_FaceRec)
    (cache : List FTC_CMapNodeRec) (fid : Nat) (ci : Int) (cc : Nat) (v : Nat)
    (hv : cacheEntry cache (normQuery fid ci cc) = some v)
    (hne : v ≠ FTC_CMAP_UNKNOWN) :
    FTC_CMapCache_Lookup faces cache fid ci cc =
      ⟨normQuery fid ci cc, v, cache, faces, [], [], []⟩ := by
  unfold cacheEntry at hv
  cases hfind : cache.find? (fun n => ftc_cmap_node_compare n (normQuery fid ci cc)) with
  | none => rw [hfind] at hv; simp at hv
  | some n =>
    rw [hfind] at hv
    simp only [Option.map_some', Option.some.injEq] at hv
    have hcmp : ftc_cmap_node_compare n (normQuery fid ci cc) = true :=
      compare_of_find? _ _ _ hfind
    have hoff : usub32 cc n.first < FTC_CMAP_INDICES_MAX :=
      ((compare_eq_true_iff n _).mp hcmp).2.2
    simp only [normQuery_char_code] at hv
    have hne2 : n.indices (usub32 cc n.first) ≠ FTC_CMAP_UNKNOWN := by
      rw [hv]; exact hne
    unfold FTC_CMapCache_Lookup
    rw [hfind]
    simp only [lookupInNode_fastpath faces n (decide (ci < 0))
      (normQuery fid ci cc).cmap_index cc hoff hne2]
    rw [replaceFirst_self _ _ _ hfind, hv]

theorem lookup_resolve_shape (faces : Nat → Option FT_TS_FaceRec)
    (cache : List FTC_CMapNodeRec) (fid : Nat) (ci : Int) (cc : Nat)
    (hcc : cc < 2 ^ 32)
    (hprobe : probeEntry cache (normQuery fid ci cc) = FTC_CMAP_UNKNOWN) :
    ∃ node : FTC_CMapNodeRec,
      node.face_id = fid ∧
      usub32 cc node.first < FTC_CMAP_INDICES_MAX ∧
      node.indices (usub32 cc node.first) = FTC_CMAP_UNKNOWN ∧
      (FTC_CMapCache_Lookup faces cache fid ci cc).gindex =
        (FTC_CMapCache_LookupInNode faces node (decide (ci < 0))
          (normQuery fid ci cc).cmap_index cc).gindex ∧
      (FTC_CMapCache_Lookup faces cache fid ci cc).faces =
        (FTC_CMapCache_LookupInNode faces node (decide (ci < 0))
          (normQuery fid ci cc).cmap_index cc).faces ∧
      (FTC_CMapCache_Lookup faces cache fid ci cc).resolve_trace =
        (FTC_CMapCache_LookupInNode faces node (decide (ci < 0))
          (normQuery fid ci cc).cmap_index cc).resolve_trace ∧
      (FTC_CMapCache_Lookup faces cache fid ci cc).set_charmap_trace =
        (FTC_CMapCache_LookupInNode faces node (decide (ci < 0))
          (normQuery fid ci cc).cmap_index cc).set_charmap_trace ∧
      (FTC_CMapCache_Lookup faces cache fid ci cc).cmap_queries =
        (FTC_CMapCache_LookupInNode faces node (decide (ci < 0))
          (normQuery fid ci cc).cmap_index cc).cmap_queries ∧
      cacheEntry (FTC_CMapCache_Lookup faces cache fid ci cc).cache
          (normQuery fid ci cc) =
        some ((FTC_CMapCache_LookupInNode faces node (decide (ci < 0))
          (normQuery fid ci cc).cmap_index cc).node.indices (usub32 cc node.first)) := by
  unfold probeEntry at hprobe
  cases hfind : cache.find? (fun n => ftc_cmap_node_compare n (normQuery fid ci cc)) with
  | some n =>
    rw [hfind] at hprobe
    simp only [normQuery_char_code] at hprobe
    have hcmp : ftc_cmap_node_compare n (normQuery fid ci cc) = true :=
      compare_of_find? _ _ _ hfind
    have hiff := (compare_eq_true_iff n _).mp hcmp
    have hoff : usub32 cc n.first < FTC_CMAP_INDICES_MAX := hiff.2.2
    have hf := lookupInNode_node_fields faces n (decide (ci < 0))
      (normQuery fid ci cc).cmap_index cc
    have hcmp2 : ftc_cmap_node_compare
        (FTC_CMapCache_LookupInNode faces n (decide (ci < 0))
          (normQuery fid ci cc).cmap_index cc).node (normQuery fid ci cc) = true := by
      rw [compare_eq_true_iff]
      refine ⟨?_, ?_, ?_⟩
      · rw [hf.1]; exact hiff.1
      · rw [hf.2.1]; exact hiff.2.1
      · rw [normQuery_char_code, hf.2.2]; exact hoff
    refine ⟨n, hiff.1, hoff, hprobe, ?_, ?_, ?_, ?_, ?_, ?_⟩
    · unfold FTC_CMapCache_Lookup; rw [hfind]
    · unfold FTC_CMapCache_Lookup; rw [hfind]
    · unfold FTC_CMapCache_Lookup; rw [hfind]
    · unfold FTC_CMapCache_Lookup; rw [hfind]
    · unfold FTC_CMapCache_Lookup; rw [hfind]
    · unfold FTC_CMapCache_Lookup
      rw [hfind]
      show cacheEntry (replaceFirst (normQuery fid ci cc)
        (FTC_CMapCache_LookupInNode faces n (decide (ci < 0))
          (normQuery fid ci cc).cmap_index cc).node cache) (normQuery fid ci cc) = _
      unfold cacheEntry
      rw [find?_replaceFirst _ _ hcmp2 cache n hfind]
      simp only [Option.map_some', Option.some.injEq, normQuery_char_code]
      rw [hf.2.2]
  | none =>
    have hcmpn : ftc_cmap_node_compare (ftc_cmap_node_new (normQuery fid ci cc))
        (normQuery fid ci cc) = true :=
      compare_node_new _ hcc
    have hiff := (compare_eq_true_iff _ _).mp hcmpn
    have hoff : usub32 cc (ftc_cmap_node_new (normQuery fid ci cc)).first <
        FTC_CMAP_INDICES_MAX := hiff.2.2
    have hf := lookupInNode_node_fields faces (ftc_cmap_node_new (normQuery fid ci cc))
      (decide (ci < 0)) (normQuery fid ci cc).cmap_index cc
    have hcmp2 : ftc_cmap_node_compare
        (FTC_CMapCache_LookupInNode faces (ftc_cmap_node_new (normQuery fid ci cc))
          (decide (ci < 0)) (normQuery fid ci cc).cmap_index cc).node
        (normQuery fid ci cc) = true := by
      rw [compare_eq_true_iff]
      refine ⟨?_, ?_, ?_⟩
      · rw [hf.1]; exact hiff.1
      · rw [hf.2.1]; exact hiff.2.1
      · rw [normQuery_char_code, hf.2.2]; exact hoff
    refine ⟨ftc_cmap_node_new (normQuery fid ci cc), rfl, hoff, rfl, ?_, ?_, ?_, ?_, ?_, ?_⟩
    · unfold FTC_CMapCache_Lookup; rw [hfind]
    · unfold FTC_CMapCache_Lookup; rw [hfind]
    · unfold FTC_CMapCache_Lookup; rw [hfind]
    · unfold FTC_CMapCache_Lookup; rw [hfind]
    · unfold FTC_CMapCache_Lookup; rw [hfind]
    · unfold FTC_CMapCache_Lookup
      rw [hfind]
      show cacheEntry ((FTC_CMapCache_LookupInNode faces
          (ftc_cmap_node_new (normQuery fid ci cc)) (decide (ci < 0))
          (normQuery fid ci cc).cmap_index cc).node :: cache) (normQuery fid ci cc) = _
      unfold cacheEntry
      rw [find?_cons_pos _ _ _ hcmp2]
      simp only [Option.map_some', Option.some.injEq, normQuery_char_code]
      rw [hf.2.2]

theorem resolveInFace_swap (face : FT_TS_FaceRec) (ci cc : Nat)
    (hr : ci < face.num_charmaps) (hd : face.charmap ≠ some ci) :
    resolveInFace face false ci cc =
      ⟨face.get_char_index (some ci) cc, face, [some ci, face.charmap],
       [(some ci, cc)]⟩ := by
  unfold resolveInFace
  rw [if_pos hr, if_pos ⟨hd, rfl⟩]
  rfl

theorem resolveInFace_nc_trace (face : FT_TS_FaceRec) (ci cc : Nat) :
    (resolveInFace face true ci cc).set_charmap_trace = [] := by
  unfold resolveInFace
  split
  · rw [if_neg (by simp)]
  · rfl

theorem resolveInFace_oor (face : FT_TS_FaceRec) (nc : Bool) (ci cc : Nat)
    (hr : face.num_charmaps ≤ ci) :
    resolveInFace face nc ci cc = ⟨0, face, [], []⟩ := by
  unfold resolveInFace
  rw [if_neg (by omega)]

theorem resolveInFace_inRange (face : FT_TS_FaceRec) (nc : Bool) (ci cc : Nat)
    (hr : ci < face.num_charmaps) :
    ∃ a, (resolveInFace face nc ci cc).gindex = face.get_char_index a cc ∧
      (resolveInFace face nc ci cc).cmap_queries = [(a, cc)] := by
  unfold resolveInFace
  rw [if_pos hr]
  by_cases h : face.charmap ≠ some ci ∧ nc = false
  · rw [if_pos h]
    exact ⟨some ci, rfl, rfl⟩
  · rw [if_neg h]
    exact ⟨face.charmap, rfl, rfl⟩

theorem lookupInNode_resolve_trace (faces : Nat → Option FT_TS_FaceRec)
    (node : FTC_CMapNodeRec) (nc : Bool) (ci cc : Nat)
    (hoff : usub32 cc node.first < FTC_CMAP_INDICES_MAX)
    (hunk : node.indices (usub32 cc node.first) = FTC_CMAP_UNKNOWN) :
    (FTC_CMapCache_LookupInNode faces node nc ci cc).resolve_trace =
      [node.face_id] := by
  unfold FTC_CMapCache_LookupInNode
  rw [if_neg (by omega), if_pos hunk]
  cases hm : faces node.face_id with
  | none => rfl
  | some face => rfl

theorem lookupInNode_nc_trace (faces : Nat → Option FT_TS_FaceRec)
    (node : FTC_CMapNodeRec) (ci cc : Nat) :
    (FTC_CMapCache_LookupInNode faces node true ci cc).set_charmap_trace = [] := by
  unfold FTC_CMapCache_LookupInNode
  split
  · rfl
  split
  · cases hm : faces node.face_id with
    | none => rfl
    | some face => exact resolveInFace_nc_trace face ci cc
  · rfl

theorem probe_of_cacheEntry (cache : List FTC_CMapNodeRec)
    (q : FTC_CMapQueryRec) (v : Nat) (h : cacheEntry cache q = some v) :
    probeEntry cache q = v := by
  unfold cacheEntry at h
  unfold probeEntry
  cases hfind : cache.find? (fun n => ftc_cmap_node_compare n q) with
  | none => rw [hfind] at h; simp at h
  | some n =>
    rw [hfind] at h
    simp only [Option.map_some', Option.some.injEq] at h
    exact h

theorem lookup_query_eq (faces : Nat → Option FT_TS_FaceRec)
    (cache : List FTC_CMapNodeRec) (fid : Nat) (ci : Int) (cc : Nat) :
    (FTC_CMapCache_Lookup faces cache fid ci cc).query = normQuery fid ci cc := by
  unfold FTC_CMapCache_Lookup
  cases hfind : cache.find? (fun n => ftc_cmap_node_compare n (normQuery fid ci cc)) with
  | none => rfl
  | some n => rfl

/-- C4: `ftc_cmap_node_compare(node, query)` returns true iff the face ids and
cmap indices agree and the unsigned 32-bit difference
`query.char_code - node.first` is strictly below 128.  For a node whose
`first` is a multiple of 128 below `2 ^ 32` (as every constructed node is) and
a 32-bit char code, this is further equivalent to the char code lying in the
node's bucket: a char code below `first` wraps to a huge unsigned value and
fails the test, and queries into different buckets (different
`char_code / 128 * 128`) of the same face/charmap never match the same node. -/
theorem node_compare_matches_iff (node : FTC_CMapNodeRec) (q : FTC_CMapQueryRec)
    (h1 : 128 ∣ node.first) (h2 : node.first < 2 ^ 32)
    (h3 : q.char_code < 2 ^ 32) :
    (ftc_cmap_node_compare node q = true ↔
      node.face_id = q.face_id ∧ node.cmap_index = q.cmap_index ∧
        usub32 q.char_code node.first < FTC_CMAP_INDICES_MAX) ∧
    (ftc_cmap_node_compare node q = true ↔
      node.face_id = q.face_id ∧ node.cmap_index = q.cmap_index ∧
        node.first ≤ q.char_code ∧
        q.char_code - node.first < FTC_CMAP_INDICES_MAX) ∧
    (q.char_code < node.first → ftc_cmap_node_compare node q = false) ∧
    (ftc_cmap_node_compare node q = true ↔
      node.face_id = q.face_id ∧ node.cmap_index = q.cmap_index ∧
        node.first = q.char_code / 128 * 128) := by
  have hiff := usub32_lt_iff q.char_code node.first h1 h2 h3
  refine ⟨compare_eq_true_iff node q, ?_, ?_, ?_⟩
  · rw [compare_eq_true_iff]
    constructor
    · rintro ⟨ha, hb, hc⟩
      exact ⟨ha, hb, hiff.mp hc⟩
    · rintro ⟨ha, hb, hc, hd⟩
      exact ⟨ha, hb, hiff.mpr ⟨hc, hd⟩⟩
  · intro hlt
    cases hx : ftc_cmap_node_compare node q
    · rfl
    · exfalso
      have hc := ((compare_eq_true_iff node q).mp hx).2.2
      have hd := hiff.mp hc
      omega
  · rw [compare_eq_true_iff]
    obtain ⟨k, hk⟩ := h1
    constructor
    · rintro ⟨ha, hb, hc⟩
      have hd := hiff.mp hc
      have hd1 : node.first ≤ q.char_code := hd.1
      have hd2 : q.char_code - node.first < 128 := hd.2
      refine ⟨ha, hb, ?_⟩
      omega
    · rintro ⟨ha, hb, hc⟩
      have he1 : node.first ≤ q.char_code := by rw [hc]; omega
      have he2 : q.char_code - node.first < 128 := by rw [hc]; omega
      exact ⟨ha, hb, hiff.mpr ⟨he1, he2⟩⟩

/-- Sample node and query for the C4 witness. -/
def nodeC4 : FTC_CMapNodeRec := ⟨1, 2, 256, fun _ => FTC_CMAP_UNKNOWN⟩

/-- Sample query for the C4 witness. -/
def qC4 : FTC_CMapQueryRec := ⟨1, 2, 300⟩

/-- Witness for C4 at a concrete node and query. -/
theorem node_compare_matches_iff_witness :
    (128 ∣ nodeC4.first ∧ nodeC4.first < 2 ^ 32 ∧ qC4.char_code < 2 ^ 32) ∧
    (ftc_cmap_node_compare nodeC4 qC4 = true ↔
      nodeC4.face_id = qC4.face_id ∧ nodeC4.cmap_index = qC4.cmap_index ∧
        nodeC4.first ≤ qC4.char_code ∧
        qC4.char_code - nodeC4.first < FTC_CMAP_INDICES_MAX) :=
  ⟨⟨by decide, by decide, by decide⟩,
   (node_compare_matches_iff nodeC4 qC4 (by decide) (by decide) (by decide)).2.1⟩

/-- C5: a successfully constructed node has
`first = (char_code / 128) * 128`, hence `first` is a multiple of 128 with
`0 ≤ char_code - first < 128`, and all 128 entries start as the
`FTC_CMAP_UNKNOWN` sentinel. -/
theorem node_new_bucket (q : FTC_CMapQueryRec) :
    (ftc_cmap_node_new q).first = q.char_code / 128 * 128 ∧
    128 ∣ (ftc_cmap_node_new q).first ∧
    (ftc_cmap_node_new q).first ≤ q.char_code ∧
    q.char_code - (ftc_cmap_node_new q).first < 128 ∧
    (∀ o, o < FTC_CMAP_INDICES_MAX →
      (ftc_cmap_node_new q).indices o = FTC_CMAP_UNKNOWN) := by
  refine ⟨rfl, ⟨q.char_code / 128, ?_⟩, ?_, ?_, fun o _ => rfl⟩
  · show q.char_code / 128 * 128 = 128 * (q.char_code / 128)
    omega
  · show q.char_code / 128 * 128 ≤ q.char_code
    omega
  · show q.char_code - q.char_code / 128 * 128 < 128
    omega

/-- Witness for C5 at a concrete query. -/
theorem node_new_bucket_witness :
    (ftc_cmap_node_new ⟨1, 2, 300⟩).first = 256 ∧
    (ftc_cmap_node_new ⟨1, 2, 300⟩).indices 44 = FTC_CMAP_UNKNOWN :=
  ⟨((node_new_bucket ⟨1, 2, 300⟩).1).trans (by decide),
   (node_new_bucket ⟨1, 2, 300⟩).2.2.2.2 44 (by decide)⟩

/-- C8 (code bug): `ftc_cmap_node_weight` computes `sizeof ( *cnode )` with
`cnode : FTC_Node = FTC_NodeRec*`, so it returns the size of the generic
header `FTC_NodeRec` unchanged, which is strictly smaller than the full
`FTC_CMapNodeRec` with its 128-entry 16-bit `indices` array under every valid
C layout (shown here at the LP64 layout: 40-byte header, 8-byte pointer,
4-byte `FT_TS_UInt` and `FT_TS_UInt32`, 312-byte full record). -/
theorem node_weight_is_header_size_only :
    (∀ s : Nat, ftc_cmap_node_weight s = s) ∧
    cmapNodeLayoutOk 40 312 8 4 4 ∧
    ftc_cmap_node_weight 40 < 312 ∧
    ftc_cmap_node_weight 40 ≠ 312 := by
  refine ⟨fun s => rfl, ?_, ?_, ?_⟩
  · show 40 + 8 + 4 + 4 + 2 * FTC_CMAP_INDICES_MAX ≤ 312
    decide
  · decide
  · decide

/-- Helper: under any valid C layout the weight reported by
`ftc_cmap_node_weight` underestimates the size of the full cmap node. -/
theorem node_weight_lt_cmap_node_size (hn hc p u v : Nat)
    (h : cmapNodeLayoutOk hn hc p u v) : ftc_cmap_node_weight hn < hc := by
  unfold cmapNodeLayoutOk FTC_CMAP_INDICES_MAX at h
  unfold ftc_cmap_node_weight
  omega

/-- Glyph function for the C10 run pair: the reported glyph index depends only
on which charmap is active when `FT_TS_Get_Char_Index` runs. -/
def giC10 : Option Nat → Nat → Nat := fun cm _ => if cm = some 0 then 10 else 20

/-- C10 environment A: face 7 resolves with charmap 0 active. -/
def facesC10a : Nat → Option FT_TS_FaceRec := fun _ => some ⟨2, some 0, giC10⟩

/-- C10 environment B: identical to A except charmap 1 is active. -/
def facesC10b : Nat → Option FT_TS_FaceRec := fun _ => some ⟨2, some 1, giC10⟩

/-- C10: with a negative charmap index the glyph is resolved under whatever
charmap is active at resolution time (here `some 0` in run A and `some 1` in
run B, witnessed by the `FT_TS_Get_Char_Index` query traces), yet both runs
key and permanently cache the result under the normalised query
`(7, 0, 65)`; the two runs, differing only in the face's initially active
charmap, cache different glyph indices for the same key. -/
theorem lookup_cached_value_depends_on_active_charmap :
    (FTC_CMapCache_Lookup facesC10a [] 7 (-1) 65).query = ⟨7, 0, 65⟩ ∧
    (FTC_CMapCache_Lookup facesC10b [] 7 (-1) 65).query = ⟨7, 0, 65⟩ ∧
    (FTC_CMapCache_Lookup facesC10a [] 7 (-1) 65).set_charmap_trace = [] ∧
    (FTC_CMapCache_Lookup facesC10b [] 7 (-1) 65).set_charmap_trace = [] ∧
    (FTC_CMapCache_Lookup facesC10a [] 7 (-1) 65).cmap_queries = [(some 0, 65)] ∧
    (FTC_CMapCache_Lookup facesC10b [] 7 (-1) 65).cmap_queries = [(some 1, 65)] ∧
    (FTC_CMapCache_Lookup facesC10a [] 7 (-1) 65).gindex = 10 ∧
    (FTC_CMapCache_Lookup facesC10b [] 7 (-1) 65).gindex = 20 ∧
    cacheEntry (FTC_CMapCache_Lookup facesC10a [] 7 (-1) 65).cache ⟨7, 0, 65⟩ =
      some 10 ∧
    cacheEntry (FTC_CMapCache_Lookup facesC10b [] 7 (-1) 65).cache ⟨7, 0, 65⟩ =
      some 20 := by
  decide

/-- Face environment whose font service reports glyph index `0x10000` for
every character; used to refute the unconditional idempotence claim. -/
def facesC1big : Nat → Option FT_TS_FaceRec := fun _ => some ⟨1, some 0, fun _ _ => 65536⟩

/-- C1 counterexample: the first lookup resolves glyph index `0x10000`,
returns it untruncated, and stores the truncated non-sentinel value `0`; the
second lookup with the same arguments returns the cached `0 ≠ 0x10000`, so
repeated lookups after a first successful resolution (store of a non-sentinel
value) do not always return the same glyph index as the first call. -/
theorem lookup_idempotence_counterexample :
    (FTC_CMapCache_Lookup facesC1big [] 7 0 65).gindex = 65536 ∧
    cacheEntry (FTC_CMapCache_Lookup facesC1big [] 7 0 65).cache ⟨7, 0, 65⟩ =
      some 0 ∧
    (0 : Nat) ≠ FTC_CMAP_UNKNOWN ∧
    (FTC_CMapCache_Lookup (FTC_CMapCache_Lookup facesC1big [] 7 0 65).faces
      (FTC_CMapCache_Lookup facesC1big [] 7 0 65).cache 7 0 65).gindex = 0 ∧
    (FTC_CMapCache_Lookup (FTC_CMapCache_Lookup facesC1big [] 7 0 65).faces
        (FTC_CMapCache_Lookup facesC1big [] 7 0 65).cache 7 0 65).gindex ≠
      (FTC_CMapCache_Lookup facesC1big [] 7 0 65).gindex := by
  decide

/-- C1 (amended): after a first lookup that stores its returned glyph index
verbatim as a non-sentinel entry (equivalently, resolves to an index that
fits in 16 bits - indices at or above `0x10000` are stored truncated, see C9),
every subsequent lookup with the same arguments returns the same glyph index
with no `FTC_Manager_LookupFace`, `FT_TS_Set_Charmap` or
`FT_TS_Get_Char_Index` call and no state change; moreover a lookup never
rewrites any entry of the node it operates on that already holds a
non-sentinel value. -/
theorem lookup_idempotent_after_fill
    (faces : Nat → Option FT_TS_FaceRec) (cache : List FTC_CMapNodeRec)
    (fid : Nat) (ci : Int) (cc : Nat) (R : CallResult)
    (_hR : R = FTC_CMapCache_Lookup faces cache fid ci cc)
    (hstore : cacheEntry R.cache (normQuery fid ci cc) = some R.gindex)
    (hns : R.gindex ≠ FTC_CMAP_UNKNOWN) :
    FTC_CMapCache_Lookup R.faces R.cache fid ci cc =
      ⟨normQuery fid ci cc, R.gindex, R.cache, R.faces, [], [], []⟩ ∧
    (∀ (faces2 : Nat → Option FT_TS_FaceRec) (node : FTC_CMapNodeRec)
        (nc : Bool) (ci2 cc2 o : Nat),
      node.indices o ≠ FTC_CMAP_UNKNOWN →
      (FTC_CMapCache_LookupInNode faces2 node nc ci2 cc2).node.indices o =
        node.indices o) :=
  ⟨lookup_fastpath R.faces R.cache fid ci cc R.gindex hstore hns,
   fun faces2 node nc ci2 cc2 o ho =>
     lookupInNode_no_overwrite faces2 node nc ci2 cc2 o ho⟩

/-- Face environment with a well-behaved 16-bit glyph index, for witnesses. -/
def facesC1 : Nat → Option FT_TS_FaceRec := fun _ => some ⟨1, some 0, fun _ _ => 36⟩

/-- Witness for the amended C1 at a concrete first call. -/
theorem lookup_idempotent_after_fill_witness :
    cacheEntry (FTC_CMapCache_Lookup facesC1 [] 7 0 65).cache (normQuery 7 0 65) =
      some (FTC_CMapCache_Lookup facesC1 [] 7 0 65).gindex ∧
    (FTC_CMapCache_Lookup facesC1 [] 7 0 65).gindex ≠ FTC_CMAP_UNKNOWN ∧
    FTC_CMapCache_Lookup (FTC_CMapCache_Lookup facesC1 [] 7 0 65).faces
        (FTC_CMapCache_Lookup facesC1 [] 7 0 65).cache 7 0 65 =
      ⟨normQuery 7 0 65, (FTC_CMapCache_Lookup facesC1 [] 7 0 65).gindex,
       (FTC_CMapCache_Lookup facesC1 [] 7 0 65).cache,
       (FTC_CMapCache_Lookup facesC1 [] 7 0 65).faces, [], [], []⟩ :=
  ⟨by decide, by decide,
   (lookup_idempotent_after_fill facesC1 [] 7 0 65
     (FTC_CMapCache_Lookup facesC1 [] 7 0 65) rfl (by decide) (by decide)).1⟩

/-- C3: with a negative charmap index the lookup keys under the normalised
index 0 (visible in the query it uses), never calls `FT_TS_Set_Charmap` (the
set-charmap trace is empty on every path), and leaves the whole face
environment - in particular the face's active charmap - unchanged. -/
theorem lookup_no_cmap_change_mode
    (faces : Nat → Option FT_TS_FaceRec) (cache : List FTC_CMapNodeRec)
    (fid : Nat) (ci : Int) (cc : Nat) (hci : ci < 0) :
    (FTC_CMapCache_Lookup faces cache fid ci cc).query = ⟨fid, 0, cc⟩ ∧
    (FTC_CMapCache_Lookup faces cache fid ci cc).set_charmap_trace = [] ∧
    (FTC_CMapCache_Lookup faces cache fid ci cc).faces = faces := by
  have hd : (decide (ci < 0)) = true := decide_eq_true hci
  refine ⟨?_, ?_, lookup_faces_unchanged faces cache fid ci cc⟩
  · rw [lookup_query_eq]
    unfold normQuery
    rw [if_pos hci]
  · unfold FTC_CMapCache_Lookup
    cases hfind : cache.find? (fun n => ftc_cmap_node_compare n (normQuery fid ci cc)) with
    | none =>
      show (FTC_CMapCache_LookupInNode faces _ (decide (ci < 0)) _ cc).set_charmap_trace = []
      rw [hd]
      exact lookupInNode_nc_trace ..
    | some n =>
      show (FTC_CMapCache_LookupInNode faces n (decide (ci < 0)) _ cc).set_charmap_trace = []
      rw [hd]
      exact lookupInNode_nc_trace ..

/-- Witness for C3 at a concrete call with charmap index -1. -/
theorem lookup_no_cmap_change_mode_witness :
    ((-1 : Int) < 0) ∧
    ((FTC_CMapCache_Lookup facesC1 [] 7 (-1) 65).query = ⟨7, 0, 65⟩ ∧
     (FTC_CMapCache_Lookup facesC1 [] 7 (-1) 65).set_charmap_trace = [] ∧
     (FTC_CMapCache_Lookup facesC1 [] 7 (-1) 65).faces = facesC1) :=
  ⟨by decide, lookup_no_cmap_change_mode facesC1 [] 7 (-1) 65 (by decide)⟩

/-- C2: for a lookup with non-negative charmap index that reaches resolution
(entry still unknown), whose face resolves, whose target charmap is in range
and differs from the currently active one, the lookup switches to the target
charmap (`FT_TS_Set_Charmap` trace `[target, old]`), queries the glyph index
with the target active (query trace `[(target, char_code)]`), and restores
the original charmap, so the whole face environment after the call equals its
value before the call. -/
theorem lookup_restores_active_charmap
    (faces : Nat → Option FT_TS_FaceRec) (cache : List FTC_CMapNodeRec)
    (fid : Nat) (ci : Int) (cc : Nat) (face : FT_TS_FaceRec)
    (hci : 0 ≤ ci) (hcc : cc < 2 ^ 32)
    (hprobe : probeEntry cache (normQuery fid ci cc) = FTC_CMAP_UNKNOWN)
    (hface : faces fid = some face)
    (hrange : ci.toNat < face.num_charmaps)
    (hdiff : face.charmap ≠ some ci.toNat) :
    (FTC_CMapCache_Lookup faces cache fid ci cc).set_charmap_trace =
      [some ci.toNat, face.charmap] ∧
    (FTC_CMapCache_Lookup faces cache fid ci cc).cmap_queries =
      [(some ci.toNat, cc)] ∧
    (FTC_CMapCache_Lookup faces cache fid ci cc).gindex =
      face.get_char_index (some ci.toNat) cc ∧
    (FTC_CMapCache_Lookup faces cache fid ci cc).faces = faces := by
  obtain ⟨node, hnfid, hoff, hunk, hg, hfa, hrt, hst, hcq, hce⟩ :=
    lookup_resolve_shape faces cache fid ci cc hcc hprobe
  have hd : (decide (ci < 0)) = false := by
    simp only [decide_eq_false_iff_not]
    omega
  have hq : (normQuery fid ci cc).cmap_index = ci.toNat := by
    rw [normQuery_cmap_index, if_neg (by omega)]
  have hface2 : faces node.face_id = some face := by rw [hnfid]; exact hface
  have hres := lookupInNode_resolve faces node (decide (ci < 0))
    (normQuery fid ci cc).cmap_index cc face hoff hunk hface2
  have hswap := resolveInFace_swap face ci.toNat cc hrange hdiff
  rw [hd, hq] at hres hst hcq hg
  rw [hswap] at hres
  refine ⟨?_, ?_, ?_, lookup_faces_unchanged faces cache fid ci cc⟩
  · rw [hst]
    simp only [hres]
  · rw [hcq]
    simp only [hres]
  · rw [hg]
    simp only [hres]

/-- Face for the C2/C9 style witnesses: two charmaps, charmap 1 active, the
reported glyph index depends on the active charmap. -/
def faceC2 : FT_TS_FaceRec := ⟨2, some 1, fun cm _ => if cm = some 0 then 36 else 99⟩

/-- Face environment resolving every face id to `faceC2`. -/
def facesC2 : Nat → Option FT_TS_FaceRec := fun _ => some faceC2

/-- Witness for C2 at a concrete call that must switch from charmap 1 to 0. -/
theorem lookup_restores_active_charmap_witness :
    ((0 : Int) ≤ 0 ∧ (65 : Nat) < 2 ^ 32 ∧
     probeEntry [] (normQuery 5 0 65) = FTC_CMAP_UNKNOWN ∧
     facesC2 5 = some faceC2 ∧ (0 : Int).toNat < faceC2.num_charmaps ∧
     faceC2.charmap ≠ some (0 : Int).toNat) ∧
    ((FTC_CMapCache_Lookup facesC2 [] 5 0 65).set_charmap_trace =
      [some (0 : Int).toNat, faceC2.charmap] ∧
     (FTC_CMapCache_Lookup facesC2 [] 5 0 65).cmap_queries =
      [(some (0 : Int).toNat, 65)] ∧
     (FTC_CMapCache_Lookup facesC2 [] 5 0 65).gindex =
      faceC2.get_char_index (some (0 : Int).toNat) 65 ∧
     (FTC_CMapCache_Lookup facesC2 [] 5 0 65).faces = facesC2) :=
  ⟨⟨by decide, by decide, by decide, rfl, by decide, by decide⟩,
   lookup_restores_active_charmap facesC2 [] 5 0 65 faceC2 (by decide) (by decide)
     (by decide) rfl (by decide) (by decide)⟩

/-- C6: when the normalised non-negative charmap index is at or beyond the
face's `num_charmaps`, the lookup returns 0 and stores 0 (not the sentinel)
into the node's entry, so the second lookup with the same arguments returns 0
from the cache with no `FTC_Manager_LookupFace`, `FT_TS_Get_Char_Index` or
`FT_TS_Set_Charmap` call. -/
theorem lookup_out_of_range_cached_zero
    (faces : Nat → Option FT_TS_FaceRec) (cache : List FTC_CMapNodeRec)
    (fid : Nat) (ci : Int) (cc : Nat) (face : FT_TS_FaceRec) (R R2 : CallResult)
    (hci : 0 ≤ ci) (hcc : cc < 2 ^ 32)
    (hprobe : probeEntry cache (normQuery fid ci cc) = FTC_CMAP_UNKNOWN)
    (hface : faces fid = some face)
    (hrange : face.num_charmaps ≤ ci.toNat)
    (hR : R = FTC_CMapCache_Lookup faces cache fid ci cc)
    (hR2 : R2 = FTC_CMapCache_Lookup R.faces R.cache fid ci cc) :
    R.gindex = 0 ∧
    cacheEntry R.cache (normQuery fid ci cc) = some 0 ∧
    R2.gindex = 0 ∧ R2.resolve_trace = [] ∧ R2.cmap_queries = [] ∧
    R2.set_charmap_trace = [] := by
  subst hR2
  subst hR
  obtain ⟨node, hnfid, hoff, hunk, hg, hfa, hrt, hst, hcq, hce⟩ :=
    lookup_resolve_shape faces cache fid ci cc hcc hprobe
  have hd : (decide (ci < 0)) = false := by
    simp only [decide_eq_false_iff_not]
    omega
  have hq : (normQuery fid ci cc).cmap_index = ci.toNat := by
    rw [normQuery_cmap_index, if_neg (by omega)]
  have hface2 : faces node.face_id = some face := by rw [hnfid]; exact hface
  have hres := lookupInNode_resolve faces node (decide (ci < 0))
    (normQuery fid ci cc).cmap_index cc face hoff hunk hface2
  rw [hd, hq] at hres hg hce
  rw [resolveInFace_oor face false ci.toNat cc hrange] at hres
  have hg0 : (FTC_CMapCache_Lookup faces cache fid ci cc).gindex = 0 := by
    rw [hg]
    simp only [hres]
  have hstored : cacheEntry (FTC_CMapCache_Lookup faces cache fid ci cc).cache
      (normQuery fid ci cc) = some 0 := by
    rw [hce]
    simp only [hres]
    simp
  have hfast := lookup_fastpath (FTC_CMapCache_Lookup faces cache fid ci cc).faces
    (FTC_CMapCache_Lookup faces cache fid ci cc).cache fid ci cc 0 hstored (by decide)
  refine ⟨hg0, hstored, ?_, ?_, ?_, ?_⟩ <;> rw [hfast]

/-- Face with two charmaps for the C6 witness; any glyph function. -/
def faceC6 : FT_TS_FaceRec := ⟨2, some 0, fun _ _ => 36⟩

/-- Environment resolving every face id to `faceC6`. -/
def facesC6 : Nat → Option FT_TS_FaceRec := fun _ => some faceC6

/-- First call of the C6 witness: charmap index 5 with only 2 charmaps. -/
def RC6 : CallResult := FTC_CMapCache_Lookup facesC6 [] 7 5 65

/-- Second call of the C6 witness. -/
def RC6b : CallResult := FTC_CMapCache_Lookup RC6.faces RC6.cache 7 5 65

/-- Witness for C6 at a concrete out-of-range call. -/
theorem lookup_out_of_range_cached_zero_witness :
    (probeEntry [] (normQuery 7 5 65) = FTC_CMAP_UNKNOWN ∧
     faceC6.num_charmaps ≤ (5 : Int).toNat) ∧
    (RC6.gindex = 0 ∧
     cacheEntry RC6.cache (normQuery 7 5 65) = some 0 ∧
     RC6b.gindex = 0 ∧ RC6b.resolve_trace = [] ∧ RC6b.cmap_queries = [] ∧
     RC6b.set_charmap_trace = []) :=
  ⟨⟨by decide, by decide⟩,
   lookup_out_of_range_cached_zero facesC6 [] 7 5 65 faceC6 RC6 RC6b
     (by decide) (by decide) (by decide) rfl (by decide) rfl rfl⟩

/-- C7: when the entry is still unknown and `FTC_Manager_LookupFace` fails for
the face id, the lookup returns 0, the entry stays `FTC_CMAP_UNKNOWN`, the
face environment is unchanged, and the next lookup with the same arguments
attempts face resolution again. -/
theorem lookup_face_resolution_failure_retries
    (faces : Nat → Option FT_TS_FaceRec) (cache : List FTC_CMapNodeRec)
    (fid : Nat) (ci : Int) (cc : Nat) (R R2 : CallResult)
    (hcc : cc < 2 ^ 32)
    (hprobe : probeEntry cache (normQuery fid ci cc) = FTC_CMAP_UNKNOWN)
    (hface : faces fid = none)
    (hR : R = FTC_CMapCache_Lookup faces cache fid ci cc)
    (hR2 : R2 = FTC_CMapCache_Lookup R.faces R.cache fid ci cc) :
    R.gindex = 0 ∧
    cacheEntry R.cache (normQuery fid ci cc) = some FTC_CMAP_UNKNOWN ∧
    R.faces = faces ∧ R.resolve_trace = [fid] ∧
    R2.gindex = 0 ∧ R2.resolve_trace = [fid] := by
  subst hR2
  subst hR
  obtain ⟨node, hnfid, hoff, hunk, hg, hfa, hrt, hst, hcq, hce⟩ :=
    lookup_resolve_shape faces cache fid ci cc hcc hprobe
  have hface2 : faces node.face_id = none := by rw [hnfid]; exact hface
  have hresf := lookupInNode_resolve_fail faces node (decide (ci < 0))
    (normQuery fid ci cc).cmap_index cc hoff hunk hface2
  have hg0 : (FTC_CMapCache_Lookup faces cache fid ci cc).gindex = 0 := by
    rw [hg]
    simp only [hresf]
  have hstored : cacheEntry (FTC_CMapCache_Lookup faces cache fid ci cc).cache
      (normQuery fid ci cc) = some FTC_CMAP_UNKNOWN := by
    rw [hce]
    simp only [hresf]
    rw [hunk]
  have hfun : (FTC_CMapCache_Lookup faces cache fid ci cc).faces = faces :=
    lookup_faces_unchanged faces cache fid ci cc
  have hrt1 : (FTC_CMapCache_Lookup faces cache fid ci cc).resolve_trace = [fid] := by
    rw [hrt]
    simp only [hresf]
    rw [hnfid]
  have hprobe2 := probe_of_cacheEntry _ _ _ hstored
  obtain ⟨node2, hnfid2, hoff2, hunk2, hg2, hfa2, hrt2, hst2, hcq2, hce2⟩ :=
    lookup_resolve_shape (FTC_CMapCache_Lookup faces cache fid ci cc).faces
      (FTC_CMapCache_Lookup faces cache fid ci cc).cache fid ci cc hcc hprobe2
  have hface3 : (FTC_CMapCache_Lookup faces cache fid ci cc).faces node2.face_id =
      none := by
    rw [hfun, hnfid2]
    exact hface
  have hresf2 := lookupInNode_resolve_fail
    (FTC_CMapCache_Lookup faces cache fid ci cc).faces node2 (decide (ci < 0))
    (normQuery fid ci cc).cmap_index cc hoff2 hunk2 hface3
  refine ⟨hg0, hstored, hfun, hrt1, ?_, ?_⟩
  · rw [hg2]
    simp only [hresf2]
  · rw [hrt2]
    simp only [hresf2]
    rw [hnfid2]

/-- Environment in which no face id resolves, for the C7 witness. -/
def facesC7 : Nat → Option FT_TS_FaceRec := fun _ => none

/-- First call of the C7 witness. -/
def RC7 : CallResult := FTC_CMapCache_Lookup facesC7 [] 7 0 65

/-- Second call of the C7 witness. -/
def RC7b : CallResult := FTC_CMapCache_Lookup RC7.faces RC7.cache 7 0 65

/-- Witness for C7 at a concrete failing resolution. -/
theorem lookup_face_resolution_failure_retries_witness :
    (probeEntry [] (normQuery 7 0 65) = FTC_CMAP_UNKNOWN ∧ facesC7 7 = none) ∧
    (RC7.gindex = 0 ∧
     cacheEntry RC7.cache (normQuery 7 0 65) = some FTC_CMAP_UNKNOWN ∧
     RC7.faces = facesC7 ∧ RC7.resolve_trace = [7] ∧
     RC7b.gindex = 0 ∧ RC7b.resolve_trace = [7]) :=
  ⟨⟨by decide, rfl⟩,
   lookup_face_resolution_failure_retries facesC7 [] 7 0 65 RC7 RC7b
     (by decide) (by decide) rfl rfl rfl⟩

/-- C9: on the resolving call the lookup returns the glyph index exactly as
the font service reported it under the then-active charmap, but stores it
reduced modulo `2 ^ 16` (`(FT_TS_UShort)gindex`).  When the stored 16-bit
value is not the sentinel, every subsequent call returns the stored value with
no further resolution - so a service result at or above `0x10000` makes the
first call's return differ from all later cached returns; when the low 16
bits are exactly `0xFFFF`, the entry equals `FTC_CMAP_UNKNOWN` and the next
call resolves again. -/
theorem lookup_truncates_glyph_to_16_bits
    (faces : Nat → Option FT_TS_FaceRec) (cache : List FTC_CMapNodeRec)
    (fid : Nat) (ci : Int) (cc : Nat) (face : FT_TS_FaceRec) (R R2 : CallResult)
    (hci : 0 ≤ ci) (hcc : cc < 2 ^ 32)
    (hprobe : probeEntry cache (normQuery fid ci cc) = FTC_CMAP_UNKNOWN)
    (hface : faces fid = some face)
    (hrange : ci.toNat < face.num_charmaps)
    (hR : R = FTC_CMapCache_Lookup faces cache fid ci cc)
    (hR2 : R2 = FTC_CMapCache_Lookup R.faces R.cache fid ci cc) :
    (∃ a, R.cmap_queries = [(a, cc)] ∧ R.gindex = face.get_char_index a cc) ∧
    cacheEntry R.cache (normQuery fid ci cc) = some (R.gindex % 2 ^ 16) ∧
    (R.gindex % 2 ^ 16 ≠ FTC_CMAP_UNKNOWN →
      R2.gindex = R.gindex % 2 ^ 16 ∧ R2.resolve_trace = [] ∧
      R2.cmap_queries = [] ∧
      (2 ^ 16 ≤ R.gindex → R2.gindex ≠ R.gindex)) ∧
    (R.gindex % 2 ^ 16 = FTC_CMAP_UNKNOWN → R2.resolve_trace = [fid]) := by
  subst hR2
  subst hR
  obtain ⟨node, hnfid, hoff, hunk, hg, hfa, hrt, hst, hcq, hce⟩ :=
    lookup_resolve_shape faces cache fid ci cc hcc hprobe
  have hd : (decide (ci < 0)) = false := by
    simp only [decide_eq_false_iff_not]
    omega
  have hq : (normQuery fid ci cc).cmap_index = ci.toNat := by
    rw [normQuery_cmap_index, if_neg (by omega)]
  have hface2 : faces node.face_id = some face := by rw [hnfid]; exact hface
  have hres := lookupInNode_resolve faces node (decide (ci < 0))
    (normQuery fid ci cc).cmap_index cc face hoff hunk hface2
  rw [hd, hq] at hres hg hcq hce
  obtain ⟨a, hga, hqa⟩ := resolveInFace_inRange face false ci.toNat cc hrange
  have hgR : (FTC_CMapCache_Lookup faces cache fid ci cc).gindex =
      (resolveInFace face false ci.toNat cc).gindex := by
    rw [hg]
    simp only [hres]
  have hstored : cacheEntry (FTC_CMapCache_Lookup faces cache fid ci cc).cache
      (normQuery fid ci cc) =
      some ((FTC_CMapCache_Lookup faces cache fid ci cc).gindex % 2 ^ 16) := by
    rw [hce]
    simp only [hres]
    rw [hgR]
    simp
  refine ⟨⟨a, ?_, ?_⟩, hstored, ?_, ?_⟩
  · rw [hcq]
    simp only [hres]
    exact hqa
  · rw [hgR]
    exact hga
  · intro hne
    have hfast := lookup_fastpath (FTC_CMapCache_Lookup faces cache fid ci cc).faces
      (FTC_CMapCache_Lookup faces cache fid ci cc).cache fid ci cc
      ((FTC_CMapCache_Lookup faces cache fid ci cc).gindex % 2 ^ 16) hstored hne
    refine ⟨by rw [hfast], by rw [hfast], by rw [hfast], ?_⟩
    intro hbig
    rw [hfast]
    show (FTC_CMapCache_Lookup faces cache fid ci cc).gindex % 2 ^ 16 ≠
      (FTC_CMapCache_Lookup faces cache fid ci cc).gindex
    have h16 : (2 : Nat) ^ 16 = 65536 := by norm_num
    rw [h16]
    rw [h16] at hbig
    omega
  · intro heq
    rw [heq] at hstored
    have hprobe2 := probe_of_cacheEntry _ _ _ hstored
    obtain ⟨node2, hnfid2, hoff2, hunk2, hg2, hfa2, hrt2, hst2, hcq2, hce2⟩ :=
      lookup_resolve_shape (FTC_CMapCache_Lookup faces cache fid ci cc).faces
        (FTC_CMapCache_Lookup faces cache fid ci cc).cache fid ci cc hcc hprobe2
    rw [hrt2]
    rw [lookupInNode_resolve_trace _ _ _ _ _ hoff2 hunk2]
    rw [hnfid2]

/-- Face whose font service reports glyph index 70000 (`0x11170`), above the
16-bit range; for the C9 witness. -/
def faceC9 : FT_TS_FaceRec := ⟨1, some 0, fun _ _ => 70000⟩

/-- Environment resolving every face id to `faceC9`. -/
def facesC9 : Nat → Option FT_TS_FaceRec := fun _ => some faceC9

/-- First call of the C9 witness. -/
def RC9 : CallResult := FTC_CMapCache_Lookup facesC9 [] 7 0 65

/-- Second call of the C9 witness. -/
def RC9b : CallResult := FTC_CMapCache_Lookup RC9.faces RC9.cache 7 0 65

/-- Witness for C9 at a concrete call whose glyph index exceeds 16 bits. -/
theorem lookup_truncates_glyph_to_16_bits_witness :
    (probeEntry [] (normQuery 7 0 65) = FTC_CMAP_UNKNOWN ∧
     (0 : Int).toNat < faceC9.num_charmaps) ∧
    ((∃ a, RC9.cmap_queries = [(a, 65)] ∧
        RC9.gindex = faceC9.get_char_index a 65) ∧
     cacheEntry RC9.cache (normQuery 7 0 65) = some (RC9.gindex % 2 ^ 16) ∧
     (RC9.gindex % 2 ^ 16 ≠ FTC_CMAP_UNKNOWN →
       RC9b.gindex = RC9.gindex % 2 ^ 16 ∧ RC9b.resolve_trace = [] ∧
       RC9b.cmap_queries = [] ∧
       (2 ^ 16 ≤ RC9.gindex → RC9b.gindex ≠ RC9.gindex)) ∧
     (RC9.gindex % 2 ^ 16 = FTC_CMAP_UNKNOWN → RC9b.resolve_trace = [7])) :=
  ⟨⟨by decide, by decide⟩,
   lookup_truncates_glyph_to_16_bits facesC9 [] 7 0 65 faceC9 RC9 RC9b
     (by decide) (by decide) (by decide) rfl (by decide) rfl rfl⟩
